import Mathlib

/-!
Shallow embedding of the Navigatr input-classification and navigation-policy
engine (src/url-input.js, src/adblock/matcher.js, src/main.js).

Strings are modelled as Lean `String`/`List Char`.  JavaScript's `trim`,
`toLowerCase` (simple ASCII case mapping), regular-expression tests and
bitwise `&` (32-bit) are embedded as executable Lean functions.  The WHATWG
`URL` constructor (a platform primitive, not repository code) is abstracted
as a parameter `String → Option String` giving the hostname / origin, with
`none` standing for a thrown exception.
-/

namespace Navigatr

/-- The JavaScript whitespace set used by `String.prototype.trim` and by the
regular-expression class `\s`: tab, LF, VT, FF, CR, space, NBSP, Ogham space,
the U+2000–U+200A range, line/paragraph separators, NNBSP, MMSP, ideographic
space and the BOM. -/
def isJsWhitespace (c : Char) : Bool :=
  c = ' ' || c = '\t' || c = '\n' || c = '\r' ||
  c = '\x0b' || c = '\x0c' ||
  c = '\u00a0' || c = '\u1680' ||
  ('\u2000' ≤ c && c ≤ '\u200a') ||
  c = '\u2028' || c = '\u2029' || c = '\u202f' || c = '\u205f' ||
  c = '\u3000' || c = '\ufeff'

/-- JavaScript line terminators, the characters the regex `.` does not match. -/
def isLineTerminator (c : Char) : Bool :=
  c = '\n' || c = '\r' || c = '\u2028' || c = '\u2029'

/-- Models `String.prototype.trim`: drop JS whitespace from both ends. -/
def trimList (l : List Char) : List Char :=
  ((l.dropWhile isJsWhitespace).reverse.dropWhile isJsWhitespace).reverse

/-- Simple case mapping for one character (`toLowerCase` on the ASCII range). -/
def lowerChar (c : Char) : Char :=
  if 'A' ≤ c && c ≤ 'Z' then Char.ofNat (c.toNat + 32) else c

/-- Models `String.prototype.toLowerCase` (simple ASCII case mapping). -/
def lowerList (l : List Char) : List Char := l.map lowerChar

/-- Split a character list at every occurrence of `sep`
(models `String.prototype.split` with a one-character separator). -/
def splitOnChar (sep : Char) : List Char → List (List Char)
  | [] => [[]]
  | c :: cs =>
    let r := splitOnChar sep cs
    if c = sep then [] :: r
    else
      match r with
      | [] => [[c]]
      | h :: t => (c :: h) :: t

/-- Decimal value of a digit list. -/
def decVal (l : List Char) : Nat :=
  l.foldl (fun acc c => acc * 10 + (c.toNat - 48)) 0

/-- Embeds `parseIpv4` (src/url-input.js:10-23): split on `.` into exactly 4
pure-decimal parts, each between 0 and 255. -/
def parseIpv4 (host : List Char) : Option (List Nat) :=
  let parts := splitOnChar '.' host
  if parts.length = 4 &&
      parts.all (fun p => !p.isEmpty && p.all Char.isDigit && decVal p ≤ 255) then
    some (parts.map decVal)
  else none

/-- Character class `[a-z0-9-]` with the `i` flag: ASCII alphanumeric or hyphen. -/
def isHostLabelChar (c : Char) : Bool := c.isAlphanum || c = '-'

/-- Embeds `isHostnameWithDot` (src/url-input.js:25-36): a dotted token of at
most 253 characters whose labels are 1-63 alphanumeric/hyphen characters and
neither start nor end with a hyphen. -/
def isHostnameWithDot (host : List Char) : Bool :=
  host.contains '.' && host.length ≤ 253 &&
  (splitOnChar '.' host).all (fun label =>
    !label.isEmpty && label.length ≤ 63 &&
    label.all isHostLabelChar &&
    label.head? ≠ some '-' && label.getLast? ≠ some '-')

/-- The character class `[0-9a-f:.%]` with the `i` flag. -/
def isIpv6Char (c : Char) : Bool :=
  c.isDigit || ('a' ≤ c && c ≤ 'f') || ('A' ≤ c && c ≤ 'F') ||
  c = ':' || c = '.' || c = '%'

/-- Embeds `isBracketedIpv6` (src/url-input.js:38-43): bracketed, nonempty
interior containing a colon, drawn from the allowed IPv6 character set. -/
def isBracketedIpv6 (host : List Char) : Bool :=
  host.head? = some '[' && host.getLast? = some ']' &&
  (let inner := (host.drop 1).dropLast
   !inner.isEmpty && inner.contains ':' && inner.all isIpv6Char)

/-- The `HostInfo` variants produced by `parseHostInfo`. -/
inductive HostInfo where
  | localhost : HostInfo
  | ipv4 (octets : List Nat) : HostInfo
  | ipv6 (value : List Char) : HostInfo
  | hostname : HostInfo
deriving DecidableEq, Repr

/-- Embeds `parseHostInfo` (src/url-input.js:45-65): lowercase `localhost`,
then IPv4 dotted-quad, then bracketed IPv6 (the brackets stripped and the
value lowercased), then dotted hostname, else `none`. -/
def parseHostInfo (host : List Char) : Option HostInfo :=
  let lowerHost := lowerList host
  if lowerHost = "localhost".data then some .localhost
  else
    match parseIpv4 lowerHost with
    | some octets => some (.ipv4 octets)
    | none =>
      if isBracketedIpv6 host then
        some (.ipv6 (lowerList ((host.drop 1).dropLast)))
      else if isHostnameWithDot lowerHost then some .hostname
      else none

/-- Embeds `isLocalIpv4` (src/url-input.js:88-97).  The JavaScript version
destructures `[a, b]`; comparisons with an `undefined` `b` are false, which
the short-list cases reproduce. -/
def isLocalIpv4 : List Nat → Bool
  | a :: b :: _ =>
    a = 0 || a = 10 || a = 127 ||
    (a = 172 && 16 ≤ b && b ≤ 31) ||
    (a = 192 && b = 168) ||
    (a = 169 && b = 254)
  | [a] => a = 0 || a = 10 || a = 127
  | [] => false

/-- Bitwise AND of the low `fuel` bits of two naturals, by structural
recursion (kernel-reducible, unlike `Nat.land`). -/
def andAux : Nat → Nat → Nat → Nat
  | 0, _, _ => 0
  | fuel + 1, n, m =>
    (if n % 2 = 1 && m % 2 = 1 then 1 else 0) + 2 * andAux fuel (n / 2) (m / 2)

/-- JavaScript's 32-bit bitwise `&` on nonnegative integer-exact operands:
AND of the low 32 bits. -/
def jsAnd32 (n m : Nat) : Nat := andAux 32 n m

/-- ASCII hexadecimal digit. -/
def isHexDigit (c : Char) : Bool :=
  c.isDigit || ('a' ≤ c && c ≤ 'f') || ('A' ≤ c && c ≤ 'F')

/-- Value of one hexadecimal digit. -/
def hexDigitVal (c : Char) : Nat :=
  if c.isDigit then c.toNat - 48
  else if 'a' ≤ c && c ≤ 'f' then c.toNat - 87
  else c.toNat - 55

/-- Value of a hexadecimal digit list. -/
def hexVal (l : List Char) : Nat :=
  l.foldl (fun acc c => acc * 16 + hexDigitVal c) 0

/-- Models `Number.parseInt(s, 16)` for the inputs reachable from the IPv6
classifier (whose character set excludes signs, `0x` prefixes and
whitespace): the longest leading run of hex digits, `none` (NaN) if empty. -/
def jsParseIntHex (l : List Char) : Option Nat :=
  let digits := l.takeWhile isHexDigit
  if digits.isEmpty then none else some (hexVal digits)

/-- Embeds `isLocalIpv6` (src/url-input.js:99-112): strip a zone suffix after
`%`, lowercase, special-case `::`/`::1`, then take the FIRST NON-EMPTY
colon-separated segment (defaulting to `"0"` only when every segment is
empty), parse it as hex, and test `(v & 0xfe00) == 0xfc00` or
`(v & 0xffc0) == 0xfe80`. -/
def isLocalIpv6 (value : List Char) : Bool :=
  let normalized := lowerList ((splitOnChar '%' value).headD [])
  if normalized = "::".data || normalized = "::1".data then true
  else
    let firstSegment :=
      ((splitOnChar ':' normalized).find? (fun seg => !seg.isEmpty)).getD ['0']
    match jsParseIntHex firstSegment with
    | none => false
    | some v =>
      jsAnd32 v 0xfe00 = 0xfc00 || jsAnd32 v 0xffc0 = 0xfe80

/-- Embeds `isLocalHostInfo` (src/url-input.js:114-120); the `none` case
models the JavaScript falsy check on a `null` host info. -/
def isLocalHostInfo : Option HostInfo → Bool
  | none => false
  | some .localhost => true
  | some (.ipv4 octets) => isLocalIpv4 octets
  | some (.ipv6 value) => isLocalIpv6 value
  | some .hostname => false

/-- Scheme-continuation class `[a-zA-Z0-9+.-]` of the URI scheme grammar. -/
def isSchemeChar (c : Char) : Bool :=
  c.isAlphanum || c = '+' || c = '.' || c = '-'

/-- Scan scheme characters up to a literal `:` (the continuation of the
anchored regex `[a-zA-Z][a-zA-Z0-9+.-]*:`; the class excludes `:`, so greedy
matching never backtracks and this scan is exact). -/
def takeSchemeTail : List Char → Option (List Char × List Char)
  | [] => none
  | c :: cs =>
    if c = ':' then some ([], cs)
    else if isSchemeChar c then
      (takeSchemeTail cs).map (fun p => (c :: p.1, p.2))
    else none

/-- Models a match of `URI_SCHEME_RE` (src/url-input.js:5, src/main.js:125):
the scheme (without the colon) and the remainder after the colon. -/
def parseScheme (s : List Char) : Option (List Char × List Char) :=
  match s with
  | [] => none
  | c :: cs =>
    if c.isAlpha then (takeSchemeTail cs).map (fun p => (c :: p.1, p.2))
    else none

/-- Models `URI_SCHEME_WITH_AUTHORITY_RE.test` (src/url-input.js:6,
src/main.js:124): a scheme followed by `//`. -/
def hasAuthorityScheme (s : List Char) : Bool :=
  match parseScheme s with
  | some p => p.2.take 2 = "//".data
  | none => false

/-- Embeds `isExplicitUri` (src/url-input.js:122-124). -/
def isExplicitUri (value : List Char) : Bool :=
  hasAuthorityScheme value || (parseScheme value).isSome

/-- The plain-host character class `[^:/?#\s]` of `HOST_PORT_RE`/`HOST_RE`. -/
def isPlainHostChar (c : Char) : Bool :=
  !(c = ':' || c = '/' || c = '?' || c = '#' || isJsWhitespace c)

/-- The bracket-interior class `[^\]\s]` of `HOST_PORT_RE`/`HOST_RE`. -/
def isBracketInnerChar (c : Char) : Bool :=
  !(c = ']' || isJsWhitespace c)

/-- Scan bracket-interior characters up to a literal `]` (the class excludes
`]`, so greedy matching is exact). -/
def scanBracketInner : List Char → Option (List Char × List Char)
  | [] => none
  | c :: cs =>
    if c = ']' then some ([], cs)
    else if isBracketInnerChar c then
      (scanBracketInner cs).map (fun p => (c :: p.1, p.2))
    else none

/-- The bracketed-host alternative `\[[^\]\s]+\]`: returns the whole host
group (brackets included) and the remainder. -/
def bracketSplit (l : List Char) : Option (List Char × List Char) :=
  match l with
  | '[' :: rest =>
    match scanBracketInner rest with
    | some (inner, rest2) =>
      if inner.isEmpty then none
      else some ('[' :: (inner ++ [']']), rest2)
    | none => none
  | _ => none

/-- The plain-host alternative `[^:/?#\s]+`: the maximal nonempty prefix of
host characters and the remainder (the class excludes `:`, so greedy matching
is exact). -/
def plainSplit (l : List Char) : Option (List Char × List Char) :=
  let host := l.takeWhile isPlainHostChar
  if host.isEmpty then none else some (host, l.dropWhile isPlainHostChar)

/-- The optional anchored suffix group `([/?#].*)?$`: empty, or led by
`/`/`?`/`#` with no line terminator afterwards (regex `.` excludes them). -/
def suffixOk : List Char → Bool
  | [] => true
  | c :: cs => (c = '/' || c = '?' || c = '#') && cs.all (fun d => !isLineTerminator d)

/-- The continuation `: \d+ ([/?#].*)? $` of `HOST_PORT_RE` after the host
group (`\d+` excludes the characters that may follow it, so greedy matching
is exact). -/
def hostPortRestOk : List Char → Bool
  | ':' :: r =>
    let port := r.takeWhile Char.isDigit
    !port.isEmpty && suffixOk (r.dropWhile Char.isDigit)
  | _ => false

/-- The host group of a `HOST_PORT_RE` match (src/url-input.js:7).  The
bracketed alternative is tried first; if it fails — or the rest of the
pattern fails after it — matching falls back to the plain alternative,
reproducing the regex engine's alternation order. -/
def hostPortHost (value : List Char) : Option (List Char) :=
  let plain :=
    match plainSplit value with
    | some (host, rest) => if hostPortRestOk rest then some host else none
    | none => none
  match bracketSplit value with
  | some (host, rest) => if hostPortRestOk rest then some host else plain
  | none => plain

/-- The host group of a `HOST_RE` match (src/url-input.js:8), built the same
way with the port requirement dropped. -/
def hostTargetHost (value : List Char) : Option (List Char) :=
  let plain :=
    match plainSplit value with
    | some (host, rest) => if suffixOk rest then some host else none
    | none => none
  match bracketSplit value with
  | some (host, rest) => if suffixOk rest then some host else plain
  | none => plain

/-- Embeds `parseHostPortShorthand` (src/url-input.js:67-77): reject any
value containing a SPACE character, match `HOST_PORT_RE`, classify the host
group. -/
def parseHostPortShorthand (value : List Char) : Option HostInfo :=
  if value.contains ' ' then none
  else
    match hostPortHost value with
    | some host => parseHostInfo host
    | none => none

/-- Embeds `parseHostTarget` (src/url-input.js:79-86). -/
def parseHostTarget (value : List Char) : Option HostInfo :=
  if value.contains ' ' then none
  else
    match hostTargetHost value with
    | some host => parseHostInfo host
    | none => none

/-- Embeds `looksLikeDomainTarget` (src/url-input.js:126-130). -/
def looksLikeDomainTarget (value : List Char) : Bool :=
  match parseHostTarget value with
  | some hostInfo => hostInfo ≠ .localhost
  | none => false

/-- Characters `encodeURIComponent` leaves unescaped: ASCII alphanumerics and
`-_.!~*()` and the apostrophe (code 39). -/
def isUnescapedUriChar (c : Char) : Bool :=
  c.isAlphanum || c = '-' || c = '_' || c = '.' || c = '!' || c = '~' ||
  c = '*' || c.toNat = 39 || c = '(' || c = ')'

/-- UTF-8 bytes of a scalar value. -/
def utf8Bytes (n : Nat) : List Nat :=
  if n < 0x80 then [n]
  else if n < 0x800 then [0xc0 + n / 0x40, 0x80 + n % 0x40]
  else if n < 0x10000 then
    [0xe0 + n / 0x1000, 0x80 + (n / 0x40) % 0x40, 0x80 + n % 0x40]
  else
    [0xf0 + n / 0x40000, 0x80 + (n / 0x1000) % 0x40,
     0x80 + (n / 0x40) % 0x40, 0x80 + n % 0x40]

/-- Uppercase hex digit character. -/
def hexDigitChar (n : Nat) : Char :=
  if n < 10 then Char.ofNat (48 + n) else Char.ofNat (55 + n)

/-- Percent-escape of one byte. -/
def percentByte (b : Nat) : List Char :=
  ['%', hexDigitChar (b / 16), hexDigitChar (b % 16)]

/-- Models `encodeURIComponent`: unescaped characters kept, all others
percent-encoded as uppercase-hex UTF-8 bytes. -/
def encodeURIComponent (l : List Char) : List Char :=
  (l.map (fun c =>
    if isUnescapedUriChar c then [c]
    else ((utf8Bytes c.toNat).map percentByte).flatten)).flatten

/-- The default search template (src/url-input.js:3). -/
def DEFAULT_SEARCH_URL : String := "https://duckduckgo.com/?q="

/-- Embeds `normalizeInput` (src/url-input.js:132-157).  `options` is the
`searchUrl` option; `none` or `some ""` fall back to the default (the
JavaScript `||`).  The result `none` models returning `null`. -/
def normalizeInput (raw : String) (options : Option String) : Option String :=
  let value := trimList raw.data
  if value.isEmpty then none
  else
    let searchUrl :=
      match options with
      | some s => if s = "" then DEFAULT_SEARCH_URL else s
      | none => DEFAULT_SEARCH_URL
    match parseHostPortShorthand value with
    | some shorthandHost =>
      some ((if isLocalHostInfo (some shorthandHost) then "http://" else "https://") ++
        String.mk value)
    | none =>
      if isExplicitUri value then some (String.mk value)
      else if isLocalHostInfo (parseHostTarget value) then
        some ("http://" ++ String.mk value)
      else if looksLikeDomainTarget value then
        some ("https://" ++ String.mk value)
      else
        some (searchUrl ++ String.mk (encodeURIComponent value))

/-! ### Tracker filter (src/adblock/matcher.js and src/main.js:41-92) -/

/-- Embeds `normalizeHost` (src/adblock/matcher.js:3-8): `none` models both a
non-string argument and the `null` returned for an empty trimmed host; note
that stripping the trailing dot can itself produce the empty string, which is
returned as `some ""` exactly as the JavaScript returns `""`. -/
def normalizeHost : Option String → Option String
  | none => none
  | some h =>
    let t := lowerList (trimList h.data)
    if t.isEmpty then none
    else if t.getLast? = some '.' then some (String.mk t.dropLast)
    else some (String.mk t)

/-- JavaScript falsy test on a nullable string: `null`/`undefined` or `""`. -/
def strFalsy : Option String → Bool
  | none => true
  | some s => s = ""

/-- Embeds `isSubdomainOrSame` (src/adblock/matcher.js:26-34): normalize both
hosts, fail on falsy results, then exact equality or a `"." + candidate`
suffix match. -/
def isSubdomainOrSame (host candidate : Option String) : Bool :=
  let nh := normalizeHost host
  let nc := normalizeHost candidate
  if strFalsy nh || strFalsy nc then false
  else
    match nh, nc with
    | some h, some c => h == c || ('.' :: c.data).isSuffixOf h.data
    | _, _ => false

/-- Embeds `isSameSite` (src/adblock/matcher.js:36-38). -/
def isSameSite (hostA hostB : Option String) : Bool :=
  isSubdomainOrSame hostA hostB || isSubdomainOrSame hostB hostA

/-- Embeds `BLOCKED_DOMAINS` (src/adblock/blocklist.js, included in
src/unnamed/part_004); `BLOCKED_DOMAIN_SET` is `new Set(BLOCKED_DOMAINS)`,
so iterating it visits exactly these entries. -/
def BLOCKED_DOMAINS : List String := [
  "doubleclick.net",
  "googlesyndication.com",
  "googleadservices.com",
  "adservice.google.com",
  "adservice.google.co.uk",
  "ads.yahoo.com",
  "adnxs.com",
  "criteo.com",
  "taboola.com",
  "outbrain.com",
  "scorecardresearch.com",
  "quantserve.com",
  "zedo.com",
  "rubiconproject.com",
  "pubmatic.com",
  "openx.net",
  "moatads.com",
  "adsrvr.org",
  "tracker.example.com",
  "googletagmanager.com",
  "google-analytics.com",
  "analytics.google.com",
  "facebook.net",
  "connect.facebook.net",
  "pixel.facebook.com"]

/-- Embeds `isBlockedHost` (src/adblock/matcher.js:40-51), generalized over
the iterated domain set; the matcher closes over the concrete
`BLOCKED_DOMAIN_SET`, i.e. the entries of `BLOCKED_DOMAINS`. -/
def isBlockedHost (blocklist : List String) (host : Option String) : Bool :=
  match normalizeHost host with
  | none => false
  | some nh =>
    if nh = "" then false
    else blocklist.any (fun d => isSubdomainOrSame (some nh) (some d))

/-- Embeds `extractHostname` (src/adblock/matcher.js:10-24).  `urlHostname`
abstracts the platform's `new URL(x).hostname` (`none` models a thrown
exception); the argument `none` models a non-string value. -/
def extractHostname (urlHostname : String → Option String) :
    Option String → Option String
  | none => none
  | some s =>
    let value := String.mk (trimList s.data)
    if value = "" ∨ value = "null" then none
    else
      match urlHostname value with
      | some h => normalizeHost (some h)
      | none =>
        match urlHostname ("http://" ++ value) with
        | some h => normalizeHost (some h)
        | none => none

/-- The verdict of the request interceptor. -/
inductive Verdict where
  | allow : Verdict
  | block : Verdict
deriving DecidableEq, Repr

/-- The fields of the `onBeforeRequest` details consumed by the filter
(src/main.js:46-81).  `sourceUrl` models the URL of the web contents found
through `details.webContentsId` (`none` when the id is not an integer or the
contents yield no URL). -/
structure RequestDetails where
  url : String
  resourceType : String
  initiator : Option String
  referrer : Option String
  sourceUrl : Option String
deriving Repr

/-- JavaScript `a || b` over nullable strings (empty string is falsy). -/
def jsOrStr (a b : Option String) : Option String :=
  match a with
  | some s => if s = "" then b else some s
  | none => b

/-- Models `/^https?:/i.test` (src/main.js:52). -/
def isHttpSchemeUrl (s : String) : Bool :=
  (lowerList s.data).take 5 = "http:".data ||
  (lowerList s.data).take 6 = "https:".data

/-- The initiator-host resolution of src/main.js:68-72: the initiator or
referrer first, then the source web contents URL. -/
def resolveInitiatorHost (urlHostname : String → Option String)
    (details : RequestDetails) : Option String :=
  match extractHostname urlHostname (jsOrStr details.initiator details.referrer) with
  | some h => some h
  | none => extractHostname urlHostname details.sourceUrl

/-- Embeds the `onBeforeRequest` verdict of `setupAdblock`
(src/main.js:46-82): pass through when disabled, for non-http(s) URLs and for
main-frame loads; allow when no request host is found or it is not blocked;
allow when no initiator host is found or it is same-site; otherwise block.
The JavaScript falsy tests on the extracted hosts also treat `""` as
missing. -/
def adblockVerdict (urlHostname : String → Option String)
    (blocklist : List String) (enabled : Bool) (details : RequestDetails) :
    Verdict :=
  if !enabled then .allow
  else if !isHttpSchemeUrl details.url then .allow
  else if details.resourceType = "mainFrame" then .allow
  else
    match extractHostname urlHostname (some details.url) with
    | none => .allow
    | some requestHost =>
      if requestHost = "" ∨ isBlockedHost blocklist (some requestHost) = false then
        .allow
      else
        match resolveInitiatorHost urlHostname details with
        | none => .allow
        | some initiatorHost =>
          if initiatorHost = "" ∨
              isSameSite (some requestHost) (some initiatorHost) = true then
            .allow
          else .block

/-! ### Navigation router (src/main.js:124-127, 396-426) -/

/-- The internal scheme set (src/main.js:126). -/
def INTERNAL_SCHEMES : List String := ["http", "https", "about", "blob", "data"]

/-- The non-authority external scheme allowlist (src/main.js:127). -/
def NON_AUTHORITY_EXTERNAL_SCHEMES : List String := ["mailto", "tel", "sms"]

/-- Embeds `getScheme` (src/main.js:396-399): the `SCHEME_RE` match without
its colon, lowercased. -/
def getScheme (targetUrl : String) : Option String :=
  (parseScheme targetUrl.data).map (fun p => String.mk (lowerList p.1))

/-- Embeds `isExternalProtocol` (src/main.js:401-407). -/
def isExternalProtocol (targetUrl : String) : Bool :=
  match getScheme targetUrl with
  | none => false
  | some scheme =>
    if INTERNAL_SCHEMES.contains scheme then false
    else if hasAuthorityScheme targetUrl.data then true
    else NON_AUTHORITY_EXTERNAL_SCHEMES.contains scheme

/-- Embeds `allowInPageNavigation` (src/main.js:409-426).  `urlOrigin`
abstracts the platform's `new URL(x).origin` (`none` models a thrown
exception, handled by the `catch`); `currentViewUrl` is the URL of the
context's view web contents. -/
def allowInPageNavigation (urlOrigin : String → Option String)
    (currentViewUrl targetUrl : String) : Bool :=
  match getScheme targetUrl with
  | none => false
  | some scheme =>
    if scheme = "about" ∨ scheme = "data" then true
    else if scheme ≠ "blob" then false
    else
      match urlOrigin targetUrl, urlOrigin currentViewUrl with
      | some targetOrigin, some currentOrigin =>
        targetOrigin ≠ "null" && currentOrigin ≠ "null" &&
          targetOrigin == currentOrigin
      | _, _ => false

/-- The three-way routing decision of the spec's Navigation Router. -/
inductive RoutingDecision where
  | LoadInView : RoutingDecision
  | OpenExternally : RoutingDecision
  | AllowInPageScheme : RoutingDecision
deriving DecidableEq, Repr

/-- The routing split applied by `registerViewHandlers` (src/main.js:554-576):
in-page allowance first, then external protocols, else load in the view. -/
def route (urlOrigin : String → Option String)
    (currentViewUrl targetUrl : String) : RoutingDecision :=
  if allowInPageNavigation urlOrigin currentViewUrl targetUrl then
    .AllowInPageScheme
  else if isExternalProtocol targetUrl then .OpenExternally
  else .LoadInView

/-- A normalization condition on a host string used by the lemmas below:
nonempty, every character fixed by lowercasing and not whitespace, and no
trailing `.`.  Every entry of `BLOCKED_DOMAINS` satisfies it (discharged by
`decide` where used). -/
def NormalizedEntry (d : String) : Prop :=
  d.data ≠ [] ∧
  (∀ c ∈ d.data, lowerChar c = c ∧ isJsWhitespace c = false) ∧
  d.data.getLast? ≠ some '.'

instance (d : String) : Decidable (NormalizedEntry d) := by
  unfold NormalizedEntry; infer_instance

/-! ### Helper lemmas -/

theorem mem_of_getLast? {l : List Char} {e : Char} (h : l.getLast? = some e) :
    e ∈ l := by
  obtain ⟨hne, heq⟩ := List.mem_getLast?_eq_getLast (x := e) h
  rw [heq]
  exact List.getLast_mem hne

theorem dropWhile_append_cons (p : Char → Bool) (X D : List Char) (c : Char)
    (hc : p c = false) :
    (X ++ c :: D).dropWhile p = X.dropWhile p ++ c :: D := by
  induction X with
  | nil => simp [List.dropWhile_cons, hc]
  | cons x xs ih =>
    by_cases hx : p x
    · simp [List.dropWhile_cons, hx, ih]
    · simp [List.dropWhile_cons, hx]

theorem dropWhile_eq_self_of (p : Char → Bool) (l : List Char)
    (h : ∀ c ∈ l, p c = false) : l.dropWhile p = l := by
  cases l with
  | nil => rfl
  | cons x xs => rw [List.dropWhile_cons, h x (by simp)]; simp

theorem lowerList_eq_self_of (l : List Char) (h : ∀ c ∈ l, lowerChar c = c) :
    lowerList l = l := by
  unfold lowerList
  induction l with
  | nil => rfl
  | cons x xs ih =>
    simp only [List.map_cons]
    rw [h x (by simp), ih (fun c hc => h c (by simp [hc]))]

theorem trimBack_of_getLast (l : List Char) (e : Char)
    (h : l.getLast? = some e) (he : isJsWhitespace e = false) :
    (l.reverse.dropWhile isJsWhitespace).reverse = l := by
  have hrev : l.reverse.head? = some e := by rw [List.head?_reverse, h]
  have hfix : l.reverse.dropWhile isJsWhitespace = l.reverse := by
    rcases hl : l.reverse with _ | ⟨a, t⟩
    · simp
    · have ha : a = e := by rw [hl] at hrev; simpa using hrev
      rw [List.dropWhile_cons, ha, he]
      simp
  rw [hfix, List.reverse_reverse]

theorem trimList_append_cons (X D : List Char) (e : Char)
    (hD : D.getLast? = some e) (he : isJsWhitespace e = false) :
    trimList (X ++ '.' :: D) = X.dropWhile isJsWhitespace ++ '.' :: D := by
  have h1 : ('.' :: D).getLast? = some e := by
    rw [show ('.' :: D) = ['.'] ++ D from rfl, List.getLast?_append, hD]; rfl
  have h2 : (X.dropWhile isJsWhitespace ++ '.' :: D).getLast? = some e := by
    rw [List.getLast?_append, h1]; rfl
  unfold trimList
  rw [dropWhile_append_cons _ _ _ _ (by decide)]
  exact trimBack_of_getLast _ e h2 he

theorem trimList_eq_self_of (l : List Char) (hne : l ≠ [])
    (h : ∀ c ∈ l, isJsWhitespace c = false) : trimList l = l := by
  obtain ⟨e, he⟩ : ∃ e, l.getLast? = some e := by
    rcases hl : l.getLast? with _ | e
    · exact absurd (List.getLast?_eq_none_iff.mp hl) hne
    · exact ⟨e, rfl⟩
  unfold trimList
  rw [dropWhile_eq_self_of _ _ h]
  exact trimBack_of_getLast _ e he (h e (mem_of_getLast? he))

theorem entry_getLast (d : String) (hd : NormalizedEntry d) :
    ∃ e, d.data.getLast? = some e ∧ isJsWhitespace e = false ∧ e ≠ '.' := by
  obtain ⟨hne, hchars, hdot⟩ := hd
  rcases hl : d.data.getLast? with _ | e
  · exact absurd (List.getLast?_eq_none_iff.mp hl) hne
  · exact ⟨e, rfl, (hchars e (mem_of_getLast? hl)).2,
      fun h => hdot (by rw [hl, h])⟩

theorem entry_ne_empty (d : String) (hd : NormalizedEntry d) : d ≠ "" := by
  intro h
  exact hd.1 (by rw [h])

theorem normalizeHost_entry (d : String) (hd : NormalizedEntry d) :
    normalizeHost (some d) = some d := by
  obtain ⟨hne, hchars, hdot⟩ := hd
  have htrim : trimList d.data = d.data :=
    trimList_eq_self_of _ hne (fun c hc => (hchars c hc).2)
  have hlower : lowerList d.data = d.data :=
    lowerList_eq_self_of _ (fun c hc => (hchars c hc).1)
  simp only [normalizeHost]
  rw [htrim, hlower,
    if_neg (by rw [List.isEmpty_iff]; exact hne),
    if_neg hdot]

theorem normalizeHost_dotted_entry (d : String) (hd : NormalizedEntry d)
    (x : String) (X : List Char) (hx : x.data = X ++ '.' :: d.data) :
    normalizeHost (some x) =
      some (String.mk (lowerList (X.dropWhile isJsWhitespace) ++ '.' :: d.data)) := by
  obtain ⟨e, he, hews, hedot⟩ := entry_getLast d hd
  have hlowerD : lowerList d.data = d.data :=
    lowerList_eq_self_of _ (fun c hc => (hd.2.1 c hc).1)
  have hlast : (lowerList (X.dropWhile isJsWhitespace) ++ '.' :: d.data).getLast? =
      some e := by
    rw [List.getLast?_append,
      show ('.' :: d.data) = ['.'] ++ d.data from rfl, List.getLast?_append, he]
    rfl
  simp only [normalizeHost]
  rw [hx, trimList_append_cons _ _ e he hews]
  rw [show lowerList (X.dropWhile isJsWhitespace ++ '.' :: d.data) =
        lowerList (X.dropWhile isJsWhitespace) ++ '.' :: d.data by
      unfold lowerList
      rw [List.map_append, List.map_cons]
      rw [show lowerChar '.' = '.' from rfl]
      rw [show List.map lowerChar d.data = d.data from hlowerD]]
  rw [if_neg (by simp), if_neg (by rw [hlast]; simp [hedot])]

theorem isSubdomainOrSame_self_entry (d : String) (hd : NormalizedEntry d) :
    isSubdomainOrSame (some d) (some d) = true := by
  simp only [isSubdomainOrSame]
  rw [normalizeHost_entry d hd]
  have hfalsy : strFalsy (some d) = false := by
    simp [strFalsy, entry_ne_empty d hd]
  rw [hfalsy]
  simp

theorem isSubdomainOrSame_dotted_entry (d : String) (hd : NormalizedEntry d)
    (x : String) (X : List Char) (hx : x.data = X ++ '.' :: d.data) :
    isSubdomainOrSame (some x) (some d) = true := by
  simp only [isSubdomainOrSame]
  rw [normalizeHost_dotted_entry d hd x X hx, normalizeHost_entry d hd]
  have h1 : strFalsy (some (String.mk
      (lowerList (X.dropWhile isJsWhitespace) ++ '.' :: d.data))) = false := by
    simp only [strFalsy]
    rw [decide_eq_false_iff_not]
    intro h
    have := congrArg String.data h
    simp at this
  have h2 : strFalsy (some d) = false := by
    simp [strFalsy, entry_ne_empty d hd]
  rw [h1, h2]
  have hsuf : ('.' :: d.data).isSuffixOf
      (lowerList (X.dropWhile isJsWhitespace) ++ '.' :: d.data) = true := by
    rw [List.isSuffixOf_iff_suffix]
    exact List.suffix_append _ _
  simp [hsuf]

/-! ### Claims -/

/-- C9: for every input that is empty or consists only of whitespace, the
Input Resolver returns `null` (no navigation). -/
theorem c9_whitespace_input_no_navigation (raw : String) (options : Option String)
    (h : raw.data.all isJsWhitespace = true) :
    normalizeInput raw options = none := by
  have h1 : raw.data.dropWhile isJsWhitespace = [] :=
    List.dropWhile_eq_nil_iff.mpr (by simpa [List.all_eq_true] using h)
  have hnil : trimList raw.data = [] := by simp [trimList, h1]
  simp [normalizeInput, hnil]

/-- Witness for C9 at the whitespace-only input `" \t "`. -/
theorem c9_whitespace_input_no_navigation_witness :
    (" \t ").data.all isJsWhitespace = true ∧
    normalizeInput " \t " none = none :=
  ⟨by decide, c9_whitespace_input_no_navigation " \t " none (by decide)⟩

/-- C2: for every input whose trimmed form matches the host:port shorthand
(host classifying successfully, all-digit port, optional path/query/fragment
suffix), the resolver returns `http://` followed by the entire trimmed input
when the host is private/loopback and `https://` followed by it otherwise,
preserving port and suffix verbatim. -/
theorem c2_host_port_scheme_choice (raw : String) (options : Option String)
    (hi : HostInfo)
    (h : parseHostPortShorthand (trimList raw.data) = some hi) :
    normalizeInput raw options =
      some ((if isLocalHostInfo (some hi) then "http://" else "https://") ++
        String.mk (trimList raw.data)) := by
  have hne : (trimList raw.data).isEmpty = false := by
    rcases hval : trimList raw.data with _ | ⟨c, cs⟩
    · rw [hval] at h
      simp [parseHostPortShorthand, hostPortHost, plainSplit, bracketSplit] at h
    · simp
  simp [normalizeInput, hne, h]

/-- Witness for C2 at the private input `127.0.0.1:3000` and the public input
`example.com:8080/path?q=1#x`. -/
theorem c2_host_port_scheme_choice_witness :
    normalizeInput "127.0.0.1:3000" none = some "http://127.0.0.1:3000" ∧
    normalizeInput "example.com:8080/path?q=1#x" none =
      some "https://example.com:8080/path?q=1#x" :=
  ⟨(c2_host_port_scheme_choice "127.0.0.1:3000" none (.ipv4 [127, 0, 0, 1])
      (by decide)).trans (by decide),
   (c2_host_port_scheme_choice "example.com:8080/path?q=1#x" none .hostname
      (by decide)).trans (by decide)⟩

/-- C7: every input carrying a recognized scheme — once the host:port
shorthand is ruled out — is returned trimmed but otherwise unchanged; and the
shorthand takes precedence, so `example.com:8080` is not treated as a URI
with scheme `example.com`. -/
theorem c7_explicit_uri_verbatim :
    (∀ (raw : String) (options : Option String),
      trimList raw.data ≠ [] →
      parseHostPortShorthand (trimList raw.data) = none →
      isExplicitUri (trimList raw.data) = true →
      normalizeInput raw options = some (String.mk (trimList raw.data))) ∧
    normalizeInput "example.com:8080" none = some "https://example.com:8080" := by
  constructor
  · intro raw options h1 h2 h3
    have hne : (trimList raw.data).isEmpty = false := by
      simpa [List.isEmpty_iff] using h1
    simp [normalizeInput, hne, h2, h3]
  · decide

/-- Witness for C7 at `mailto:test@example.com` and `foo:bar`. -/
theorem c7_explicit_uri_verbatim_witness :
    normalizeInput "mailto:test@example.com" none =
      some "mailto:test@example.com" ∧
    normalizeInput "foo:bar" none = some "foo:bar" :=
  ⟨(c7_explicit_uri_verbatim.1 "mailto:test@example.com" none (by decide)
      (by decide) (by decide)).trans (by decide),
   (c7_explicit_uri_verbatim.1 "foo:bar" none (by decide)
      (by decide) (by decide)).trans (by decide)⟩

/-- C8 counterexample: `"example.com:8080/a\tb"` is its own trimmed form,
contains a whitespace character (the tab), and is nonetheless resolved
through the host:port shorthand branch — `HOST_PORT_RE`'s suffix group
matches a tab and `parseHostPortShorthand` only rejects spaces. -/
theorem c8_counterexample_tab_suffix :
    trimList "example.com:8080/a\tb".data = "example.com:8080/a\tb".data ∧
    "example.com:8080/a\tb".data.any isJsWhitespace = true ∧
    parseHostPortShorthand "example.com:8080/a\tb".data = some .hostname ∧
    normalizeInput "example.com:8080/a\tb" none =
      some "https://example.com:8080/a\tb" := by decide

/-- C8 amended: the host:port shorthand never applies to an input containing
a SPACE character (the regex additionally keeps whitespace out of the host
and port groups, but whitespace other than a space may appear in the
path/query/fragment suffix). -/
theorem c8_space_blocks_shorthand (value : List Char)
    (h : value.contains ' ' = true) :
    parseHostPortShorthand value = none := by
  unfold parseHostPortShorthand
  rw [h]
  simp

/-- Witness for C8 at `"exa mple.com:8080"`. -/
theorem c8_space_blocks_shorthand_witness :
    ("exa mple.com:8080").data.contains ' ' = true ∧
    parseHostPortShorthand "exa mple.com:8080".data = none :=
  ⟨by decide, c8_space_blocks_shorthand _ (by decide)⟩

/-- Reflexivity and subdomain monotonicity of `isBlockedHost` over any
normalized entry of any domain list. -/
theorem isBlockedHost_entry_monotone (blocklist : List String)
    (d : String) (hmem : d ∈ blocklist) (hd : NormalizedEntry d) :
    isBlockedHost blocklist (some d) = true ∧
    ∀ s : String, isBlockedHost blocklist (some (s ++ "." ++ d)) = true := by
  constructor
  · simp only [isBlockedHost, normalizeHost_entry d hd]
    rw [if_neg (entry_ne_empty d hd)]
    exact List.any_eq_true.mpr ⟨d, hmem, isSubdomainOrSame_self_entry d hd⟩
  · intro s
    have hdata : (s ++ "." ++ d).data = s.data ++ '.' :: d.data := by
      rw [String.data_append, String.data_append]
      simp [List.append_assoc]
    simp only [isBlockedHost,
      normalizeHost_dotted_entry d hd (s ++ "." ++ d) s.data hdata]
    rw [if_neg (by
      intro h
      have := congrArg String.data h
      simp at this)]
    refine List.any_eq_true.mpr ⟨d, hmem, ?_⟩
    exact isSubdomainOrSame_dotted_entry d hd _
      (lowerList (s.data.dropWhile isJsWhitespace)) rfl

/-- C5: `isBlockedHost` over the repository's `BLOCKED_DOMAINS` is reflexive
on blocklist entries and monotone over subdomains: every entry `d` of the
blocklist is itself blocked, and for every string `s` the host
`s ++ "." ++ d` is blocked. -/
theorem c5_blocked_host_reflexive_monotone (d : String)
    (hmem : d ∈ BLOCKED_DOMAINS) :
    isBlockedHost BLOCKED_DOMAINS (some d) = true ∧
    ∀ s : String, isBlockedHost BLOCKED_DOMAINS (some (s ++ "." ++ d)) = true := by
  have hall : ∀ e ∈ BLOCKED_DOMAINS, NormalizedEntry e := by decide
  exact isBlockedHost_entry_monotone BLOCKED_DOMAINS d hmem (hall d hmem)

/-- Witness for C5 at the entry `doubleclick.net` of `BLOCKED_DOMAINS` (the
entry also asserted by the repository's matcher tests) and at the subdomain
`stats.g.doubleclick.net`. -/
theorem c5_blocked_host_reflexive_monotone_witness :
    isBlockedHost BLOCKED_DOMAINS (some "doubleclick.net") = true ∧
    isBlockedHost BLOCKED_DOMAINS
      (some ("stats.g" ++ "." ++ "doubleclick.net")) = true :=
  ⟨(c5_blocked_host_reflexive_monotone "doubleclick.net" (by decide)).1,
   (c5_blocked_host_reflexive_monotone "doubleclick.net" (by decide)).2 "stats.g"⟩

/-- C6: when no hostname can be extracted from the request URL — the
abstracted URL parse fails on the trimmed URL and again with an assumed
`http://` prefix — the tracker filter returns allow regardless of the
blocklist and the initiator. -/
theorem c6_unparseable_request_allowed (urlHostname : String → Option String)
    (blocklist : List String) (enabled : Bool) (details : RequestDetails)
    (h1 : urlHostname (String.mk (trimList details.url.data)) = none)
    (h2 : urlHostname ("http://" ++ String.mk (trimList details.url.data)) = none) :
    adblockVerdict urlHostname blocklist enabled details = .allow := by
  have hex : extractHostname urlHostname (some details.url) = none := by
    simp only [extractHostname]
    by_cases hc : String.mk (trimList details.url.data) = "" ∨
        String.mk (trimList details.url.data) = "null"
    · rw [if_pos hc]
    · rw [if_neg hc, h1, h2]
  simp [adblockVerdict, hex]

/-- Witness for C6 with a URL parse that always fails, the blocklist
`["doubleclick.net"]` and a blocklisted initiator. -/
theorem c6_unparseable_request_allowed_witness :
    adblockVerdict (fun _ => none) ["doubleclick.net"] true
      { url := "http://////", resourceType := "script",
        initiator := some "https://doubleclick.net", referrer := none,
        sourceUrl := none } = .allow :=
  c6_unparseable_request_allowed (fun _ => none) ["doubleclick.net"] true
    { url := "http://////", resourceType := "script",
      initiator := some "https://doubleclick.net", referrer := none,
      sourceUrl := none } rfl rfl

/-- C4: the filter never blocks a same-site request: whenever a request host
is extracted (and is in the blocklist) and an initiator host is resolved such
that `isSameSite` holds between them, the verdict is allow. -/
theorem c4_same_site_never_blocked (urlHostname : String → Option String)
    (blocklist : List String) (enabled : Bool) (details : RequestDetails)
    (requestHost initiatorHost : String)
    (hreq : extractHostname urlHostname (some details.url) = some requestHost)
    (_hb : isBlockedHost blocklist (some requestHost) = true)
    (hinit : resolveInitiatorHost urlHostname details = some initiatorHost)
    (hsame : isSameSite (some requestHost) (some initiatorHost) = true) :
    adblockVerdict urlHostname blocklist enabled details = .allow := by
  simp [adblockVerdict, hreq, hinit, hsame]

/-- Witness for C4: a blocklisted request from a same-site (subdomain)
initiator is allowed. -/
theorem c4_same_site_never_blocked_witness :
    adblockVerdict
      (fun s => if s = "https://doubleclick.net/pixel" then some "doubleclick.net"
        else if s = "https://stats.g.doubleclick.net/" then some "stats.g.doubleclick.net"
        else none)
      ["doubleclick.net"] true
      { url := "https://doubleclick.net/pixel", resourceType := "image",
        initiator := some "https://stats.g.doubleclick.net/", referrer := none,
        sourceUrl := none } = .allow :=
  c4_same_site_never_blocked _ ["doubleclick.net"] true _
    "doubleclick.net" "stats.g.doubleclick.net"
    (by decide) (by decide) (by decide) (by decide)

/-- C10 counterexample: the filter does NOT unconditionally allow a
blocklisted request whose initiator is the opaque origin `"null"`.  When the
initiator fails to yield a host, src/main.js:69-72 falls back to the source
web contents URL; here that URL resolves to `news.example`, which is not
same-site with the blocked `doubleclick.net` request, so the verdict is
block. -/
theorem c10_counterexample_webcontents_fallback :
    adblockVerdict
      (fun s => if s = "https://doubleclick.net/ad.js" then some "doubleclick.net"
        else if s = "https://news.example/" then some "news.example" else none)
      BLOCKED_DOMAINS true
      { url := "https://doubleclick.net/ad.js", resourceType := "script",
        initiator := some "null", referrer := none,
        sourceUrl := some "https://news.example/" } = .block := by decide

/-- C10 as amended: hostname extraction maps the literal string `"null"` (an
opaque origin's serialization), the empty string and non-string values to no
hostname, for every underlying URL parse; consequently a request whose
initiator is `"null"` is allowed WHEN the web-contents fallback of
src/main.js:69-72 yields no URL — with a fallback URL that resolves to a
cross-site host, the code blocks instead. -/
theorem c10_null_initiator_fails_open :
    (∀ urlHostname : String → Option String,
      extractHostname urlHostname (some "null") = none ∧
      extractHostname urlHostname (some "") = none ∧
      extractHostname urlHostname none = none) ∧
    (∀ (urlHostname : String → Option String) (blocklist : List String)
      (enabled : Bool) (url resourceType : String) (referrer : Option String),
      adblockVerdict urlHostname blocklist enabled
        { url := url, resourceType := resourceType, initiator := some "null",
          referrer := referrer, sourceUrl := none } = .allow) := by
  have hnull : ∀ urlHostname : String → Option String,
      extractHostname urlHostname (some "null") = none := by
    intro f
    simp only [extractHostname]
    rw [if_pos (Or.inr (by decide))]
  constructor
  · intro f
    refine ⟨hnull f, ?_, rfl⟩
    simp only [extractHostname]
    rw [if_pos (Or.inl (by decide))]
  · intro f bl enabled url rt referrer
    have hres : resolveInitiatorHost f
        { url := url, resourceType := rt, initiator := some "null",
          referrer := referrer, sourceUrl := none } = none := by
      simp only [resolveInitiatorHost, jsOrStr]
      rw [if_neg (by decide), hnull f]
      rfl
    unfold adblockVerdict
    rw [hres]
    repeat first
    | rfl
    | split

/-- C3: for a `blob:` target, the router yields `AllowInPageScheme` only when
both the target URL and the current view URL parse to origins, neither is the
opaque `"null"`, and the two origins are equal; a `blob:` target with a
differing or opaque origin never yields `AllowInPageScheme`. -/
theorem c3_blob_requires_matching_origin (urlOrigin : String → Option String)
    (currentViewUrl targetUrl : String)
    (hscheme : getScheme targetUrl = some "blob")
    (hroute : route urlOrigin currentViewUrl targetUrl = .AllowInPageScheme) :
    ∃ o, urlOrigin targetUrl = some o ∧ urlOrigin currentViewUrl = some o ∧
      o ≠ "null" := by
  have hallow : allowInPageNavigation urlOrigin currentViewUrl targetUrl = true := by
    by_cases hb : allowInPageNavigation urlOrigin currentViewUrl targetUrl = true
    · exact hb
    · exfalso
      rw [Bool.not_eq_true] at hb
      unfold route at hroute
      rw [hb] at hroute
      cases hext : isExternalProtocol targetUrl <;>
        rw [hext] at hroute <;> simp at hroute
  unfold allowInPageNavigation at hallow
  rw [hscheme] at hallow
  simp only at hallow
  rw [if_neg (by simp), if_neg (by simp)] at hallow
  rcases h1 : urlOrigin targetUrl with _ | o1 <;> rw [h1] at hallow
  · simp at hallow
  · rcases h2 : urlOrigin currentViewUrl with _ | o2 <;> rw [h2] at hallow
    · simp at hallow
    · simp only [Bool.and_eq_true, decide_eq_true_eq, beq_iff_eq] at hallow
      obtain ⟨⟨hn1, _⟩, heq⟩ := hallow
      refine ⟨o1, rfl, ?_, hn1⟩
      rw [heq]

/-- Witness for C3: a `blob:` target whose origin matches the current view's
origin routes as `AllowInPageScheme`, and the theorem yields that shared
non-opaque origin. -/
theorem c3_blob_requires_matching_origin_witness :
    ∃ o : String, some "https://app.example" = some o ∧
      some "https://app.example" = some o ∧ o ≠ "null" :=
  c3_blob_requires_matching_origin (fun _ => some "https://app.example")
    "https://app.example/page" "blob:https://app.example/x"
    (by decide) (by decide)

/-- C1: the code evaluated at the failing input `[::fc00]`.  The claim (and
spec §4.1) take the first hextet of an address beginning with `::` to be `0`,
so `::fc00` must not be private; the implementation instead bit-tests the
first NON-EMPTY colon segment (`fc00`), classifies the address as unique
local, and the resolver consequently picks `http://`. -/
theorem c1_ipv6_first_nonempty_segment_bug :
    parseHostInfo "[::fc00]".data = some (.ipv6 "::fc00".data) ∧
    isLocalIpv6 "::fc00".data = true ∧
    normalizeInput "[::fc00]:8080" none = some "http://[::fc00]:8080" := by decide

end Navigatr
